import Mathlib

/-!
# Verification of the check-and-alert engine of server-healthcheck-telegram-bot

Shallow embedding of `app/checks/check.go` and `app/checks/storage.go`
(package `checks`).  Conventions:

* `time.Time` is modelled as `Int` — seconds since an arbitrary epoch;
  the Go zero value (`t.IsZero()`) is modelled as `0`.  Durations are
  `Int` seconds, so `24 * time.Hour` is `86400`.
* Go computes `daysToExpiry` as `int(d.Hours() / 24)` on `float64`s;
  `int(·)` truncates toward zero.  For durations measured in whole
  seconds this equals `Int.tdiv` of the seconds by `86400`, which is
  how we model it.
* The network and the Telegram API are modelled as explicit inputs:
  an HTTP outcome, a TLS-dial oracle and booleans telling whether each
  `bot.Send` call succeeds.
* `float64` `Availability` is modelled as `ℚ`; the division performed
  by the Go code is exact in the model.
-/

namespace Checks

/-- Seconds in one day; Go's `24 * time.Hour`. -/
def secPerDay : Int := 86400

/-- Model of `strings.Contains` (case-sensitive literal substring test). -/
def goContains (s sub : String) : Bool :=
  decide (sub.data <:+: s.data)

/-- Model of `strings.CutPrefix prefix s`: `some rest` when `s` starts with
the prefix, `none` otherwise (the Go `ok` flag). -/
def goCutPfx (pre s : String) : Option String :=
  if pre.data <+: s.data then some ⟨s.data.drop pre.data.length⟩ else none

/-- `host[:idx]` for `idx := strings.Index(host, c)` guarded by `idx != -1`:
keep everything before the first occurrence of `c` (the whole string when
`c` does not occur). -/
def goTruncAt (c : Char) (s : String) : String :=
  ⟨s.data.takeWhile (fun x => x ≠ c)⟩

/-- `ServerCheck` from check.go — configuration and persisted state of one
monitored server.  Field names follow the Go struct. -/
structure ServerCheck where
  Name : String
  URL : String
  LastFailure : Int
  LastSuccess : Int
  IsOk : Bool
  ExpectedContent : String
  ResponseTimeThreshold : Int
  LastResponseTime : Int
  SSLExpiryDate : Int
  SSLExpiryThreshold : Int
  LastSSLNotification : Int
  Availability : ℚ
  TotalChecks : Int
  SuccessfulChecks : Int
deriving DecidableEq, Repr

/-- `CheckResult` from check.go — outcome of one probe. -/
structure CheckResult where
  IsOk : Bool
  ResponseTime : Int
  StatusCode : Int
  ContentMatched : Bool
  SSLExpiryDate : Int
  ErrorMessage : String
deriving DecidableEq, Repr

/-- What `io.ReadAll(resp.Body)` yields in a given run. -/
inductive BodyRead where
  | ok (body : String)
  | readErr (msg : String)
deriving DecidableEq, Repr

/-- The observable behaviour of the HTTP layer for one probe:
`http.NewRequest` fails, `httpClient.Do` fails, or a response arrives
with a status code, a body and an elapsed time in milliseconds. -/
inductive NetOutcome where
  | reqError (msg : String)
  | connError (msg : String)
  | response (status : Int) (body : BodyRead) (elapsedMs : Int)
deriving DecidableEq, Repr

/-- The observable behaviour of `tls.Dial` for a given address:
failure, or a connection whose peer certificates have the given
`NotAfter` times. -/
inductive TLSOutcome where
  | dialError
  | connected (notAfters : List Int)
deriving DecidableEq, Repr

/-- The host string the code would pass to `tls.Dial` (before appending
`":443"`), `none` when the URL is not `https`.  Mirrors the string
slicing in `getSSLExpiryDate`: cut the `https://` prefix, truncate at
the first `/`, then truncate at the first `:`. -/
def tlsDialHost (serverURL : String) : Option String :=
  match goCutPfx "https://" serverURL with
  | none => none
  | some host => some (goTruncAt ':' (goTruncAt '/' host))

/-- `getSSLExpiryDate` from check.go.  `tls` is the dial oracle, applied to
the dialed address `host:443`.  Returns the leaf certificate's expiry, or
`0` (the zero `time.Time`) when the URL is not https, the dial fails, or
no peer certificate is present. -/
def getSSLExpiryDate (serverURL : String) (tls : String → TLSOutcome) : Int :=
  match tlsDialHost serverURL with
  | none => 0
  | some host =>
    match tls (host ++ ":443") with
    | .dialError => 0
    | .connected notAfters =>
      match notAfters with
      | [] => 0
      | c :: _ => c

/-- `checkServerStatus` from check.go, as a function of the server record
and the run's network behaviour. -/
def checkServerStatus (server : ServerCheck) (net : NetOutcome)
    (tls : String → TLSOutcome) : CheckResult :=
  match net with
  | .reqError msg =>
    { IsOk := false, ResponseTime := 0, StatusCode := 0, ContentMatched := false,
      SSLExpiryDate := 0, ErrorMessage := "Failed to create request: " ++ msg }
  | .connError msg =>
    { IsOk := false, ResponseTime := 0, StatusCode := 0, ContentMatched := false,
      SSLExpiryDate := 0, ErrorMessage := "Failed to get server status: " ++ msg }
  | .response status body elapsedMs =>
    if ¬ (200 ≤ status ∧ status < 300) then
      { IsOk := false, ResponseTime := elapsedMs, StatusCode := status,
        ContentMatched := false, SSLExpiryDate := 0,
        ErrorMessage := "Status code " ++ toString status ++ " is not successful" }
    else if server.ExpectedContent ≠ "" then
      match body with
      | .readErr msg =>
        { IsOk := false, ResponseTime := elapsedMs, StatusCode := status,
          ContentMatched := false, SSLExpiryDate := 0,
          ErrorMessage := "Failed to read response body: " ++ msg }
      | .ok bodyString =>
        if ¬ goContains bodyString server.ExpectedContent then
          { IsOk := false, ResponseTime := elapsedMs, StatusCode := status,
            ContentMatched := false, SSLExpiryDate := 0,
            ErrorMessage := "Expected content not found in response" }
        else
          { IsOk := true, ResponseTime := elapsedMs, StatusCode := status,
            ContentMatched := true,
            SSLExpiryDate := getSSLExpiryDate server.URL tls, ErrorMessage := "" }
    else
      { IsOk := true, ResponseTime := elapsedMs, StatusCode := status,
        ContentMatched := false,
        SSLExpiryDate := getSSLExpiryDate server.URL tls, ErrorMessage := "" }

/-- `shouldSendSSLNotification` from check.go: never notified before, or
more than 24 hours since the last notification.  `now` stands for the
moment `time.Since` reads the clock. -/
def shouldSendSSLNotification (lastNotification now : Int) : Bool :=
  lastNotification = 0 ∨ now - lastNotification > 24 * 3600

/-- The per-target in-memory alert state for one name:
`serverFailureCount[name]` and `serverSendFaultMessage[name]`
(missing map keys read as the Go zero values `0` and `false`). -/
structure AlertState where
  failureCount : Int
  faultSent : Bool
deriving DecidableEq, Repr

/-- Outcome of one potential notification: not attempted, attempted but
`bot.Send` returned an error, or sent successfully. -/
inductive SendOutcome where
  | none
  | failed
  | sent
deriving DecidableEq, Repr

/-- `int(time.Until(expiry).Hours() / 24)` at clock value `now`:
Go's `int(·)` truncates toward zero, hence `Int.tdiv`. -/
def daysToExpiry (sslExpiryDate now : Int) : Int :=
  Int.tdiv (sslExpiryDate - now) secPerDay

/-- The threshold used by `checkSSLExpiry`: the per-target
`SSLExpiryThreshold` when positive, the global one otherwise. -/
def effectiveSSLThreshold (globalThreshold perTarget : Int) : Int :=
  if perTarget > 0 then perTarget else globalThreshold

/-- `checkSSLExpiry` from check.go.  `sendOk` tells whether `bot.Send`
succeeds; `checkTime` doubles as the current clock (the Go code reads
the clock again inside, microseconds later).  Returns the updated record
(the Go code mutates it through a pointer) and what happened to the
notification.  On send failure the function returns early without
updating `LastSSLNotification`. -/
def checkSSLExpiry (globalThreshold : Int) (serverCheck : ServerCheck)
    (checkTime : Int) (sendOk : Bool) : ServerCheck × SendOutcome :=
  let sslThreshold := effectiveSSLThreshold globalThreshold serverCheck.SSLExpiryThreshold
  let days := daysToExpiry serverCheck.SSLExpiryDate checkTime
  if days ≥ sslThreshold ∨ days < 0 then
    (serverCheck, .none)
  else if ¬ shouldSendSSLNotification serverCheck.LastSSLNotification checkTime then
    (serverCheck, .none)
  else if ¬ sendOk then
    (serverCheck, .failed)
  else
    ({ serverCheck with LastSSLNotification := checkTime }, .sent)

/-- `handleServerDown` from check.go: bump the consecutive-failure
counter; at `alertThreshold` send the down message and, regardless of
whether the send succeeded, set the fault flag and zero the counter. -/
def handleServerDown (st : AlertState) (alertThreshold : Int)
    (sendOk : Bool) : AlertState × SendOutcome :=
  let count := st.failureCount + 1
  if count ≥ alertThreshold then
    ({ failureCount := 0, faultSent := true },
     if sendOk then .sent else .failed)
  else
    ({ st with failureCount := count }, .none)

/-- `handleServerUp` from check.go: optionally send a slow-response
warning, then clear the fault flag and the counter; send the recovery
message exactly when the flag was set.  Returns the new state, the
slow-warning outcome and the recovery-message outcome. -/
def handleServerUp (st : AlertState) (serverCheck : ServerCheck)
    (checkResult : CheckResult) (slowSendOk upSendOk : Bool) :
    AlertState × SendOutcome × SendOutcome :=
  let slow :=
    if serverCheck.ResponseTimeThreshold > 0 ∧
        checkResult.ResponseTime > serverCheck.ResponseTimeThreshold then
      if slowSendOk then SendOutcome.sent else SendOutcome.failed
    else SendOutcome.none
  let wasFault := st.faultSent
  let up :=
    if wasFault then
      if upSendOk then SendOutcome.sent else SendOutcome.failed
    else SendOutcome.none
  ({ failureCount := 0, faultSent := false }, slow, up)

/-- Lines 113–127 of check.go: fold one probe outcome into the record's
statistics.  `TotalChecks` is incremented first, so the availability
branch's guard `TotalChecks > 0` sees the incremented value. -/
def updateStats (serverCheck : ServerCheck) (checkResult : CheckResult)
    (checkTime : Int) : ServerCheck :=
  let r1 := { serverCheck with TotalChecks := serverCheck.TotalChecks + 1 }
  let r2 :=
    if checkResult.IsOk then
      { r1 with LastSuccess := checkTime, SuccessfulChecks := r1.SuccessfulChecks + 1 }
    else
      { r1 with LastFailure := checkTime }
  let r3 := { r2 with IsOk := checkResult.IsOk, LastResponseTime := checkResult.ResponseTime }
  if r3.TotalChecks > 0 then
    { r3 with Availability := (r3.SuccessfulChecks : ℚ) / (r3.TotalChecks : ℚ) * 100 }
  else r3

/-- The environment of one loop iteration of `PerformCheck` for one
target: the network behaviour, the clock reading `time.Now()` and the
success of each potential `bot.Send` call. -/
structure CycleEnv where
  net : NetOutcome
  tls : String → TLSOutcome
  now : Int
  sslSendOk : Bool
  downSendOk : Bool
  slowSendOk : Bool
  upSendOk : Bool

/-- Everything observable about one loop iteration of `PerformCheck` for
one target: the record as written back to the collection (and persisted),
the new in-memory alert state, and each notification's outcome. -/
structure CycleOutput where
  record : ServerCheck
  alert : AlertState
  probeOk : Bool
  sslWarn : SendOutcome
  down : SendOutcome
  slow : SendOutcome
  up : SendOutcome
  time : Int
deriving Repr

/-- One iteration of the `PerformCheck` loop (check.go lines 109–150) for
one target: probe, update statistics, run the SSL-expiry branch when the
probe captured a certificate expiry, store the record, then the
mutually-exclusive down/up branch.  `SaveChecksData` runs after all of
this and does not alter any of it. -/
def processTarget (alertThreshold globalThreshold : Int)
    (serverCheck : ServerCheck) (st : AlertState) (env : CycleEnv) : CycleOutput :=
  let checkResult := checkServerStatus serverCheck env.net env.tls
  let checkTime := env.now
  let rec1 := updateStats serverCheck checkResult checkTime
  let ssl :=
    if checkResult.SSLExpiryDate ≠ 0 then
      checkSSLExpiry globalThreshold
        { rec1 with SSLExpiryDate := checkResult.SSLExpiryDate } checkTime env.sslSendOk
    else (rec1, .none)
  if ¬ checkResult.IsOk then
    let hd := handleServerDown st alertThreshold env.downSendOk
    { record := ssl.1, alert := hd.1, probeOk := false, sslWarn := ssl.2,
      down := hd.2, slow := .none, up := .none, time := env.now }
  else
    let hu := handleServerUp st ssl.1 checkResult env.slowSendOk env.upSendOk
    { record := ssl.1, alert := hu.1, probeOk := true, sslWarn := ssl.2,
      down := .none, slow := hu.2.1, up := hu.2.2, time := env.now }

/-- Iterate `processTarget` over a list of per-cycle environments for one
fixed target, threading the persisted record and the in-memory alert
state, and collecting each cycle's output in order. -/
def runTargetCycles (alertThreshold globalThreshold : Int)
    (serverCheck : ServerCheck) (st : AlertState) :
    List CycleEnv → ServerCheck × AlertState × List CycleOutput
  | [] => (serverCheck, st, [])
  | env :: envs =>
    let out := processTarget alertThreshold globalThreshold serverCheck st env
    let rest := runTargetCycles alertThreshold globalThreshold out.record out.alert envs
    (rest.1, rest.2.1, out :: rest.2.2)

/-- The per-target persisted collection, `Data` from check.go, as an
association list keyed by `Name`. -/
structure Data where
  HealthChecks : List (String × ServerCheck)
deriving DecidableEq, Repr

/-- What the storage file yields when `ReadChecksData` runs: `os.Open`
fails, `decoder.Decode` fails, or a collection is decoded. -/
inductive FileReadResult where
  | openError (msg : String)
  | decodeError (msg : String)
  | decoded (d : Data)
deriving DecidableEq, Repr

/-- Result of the load operation: `log.Fatalf` terminates the process,
otherwise a collection is returned. -/
inductive LoadOutcome where
  | fatal (msg : String)
  | loaded (d : Data)
deriving DecidableEq, Repr

/-- `ReadChecksData` from storage.go: both error paths call `log.Fatalf`,
which terminates the process. -/
def ReadChecksData : FileReadResult → LoadOutcome
  | .openError msg => .fatal ("failed open checks.json: " ++ msg)
  | .decodeError msg => .fatal ("failed decode checks.json: " ++ msg)
  | .decoded d => .loaded d

/-- Spec-side success criterion of the probe, transcribed from the
specification's words: a response is received, the status code is in
[200,300), and when `expectedContent` is non-empty the body contains it
as a case-sensitive literal substring. -/
def probeSuccessSpec (server : ServerCheck) (net : NetOutcome) : Prop :=
  match net with
  | .response status body _ =>
    200 ≤ status ∧ status < 300 ∧
      (server.ExpectedContent = "" ∨
        ∃ b, body = .ok b ∧ goContains b server.ExpectedContent = true)
  | _ => False

/-- Spec-side host component of an https URL: strip the scheme, keep the
authority (up to the first `/`); a bracketed IPv6 literal is the part
through the closing bracket, otherwise the host ends at the port colon. -/
def specURLHost (serverURL : String) : Option String :=
  match goCutPfx "https://" serverURL with
  | none => none
  | some rest =>
    let authority := rest.data.takeWhile (fun c => c ≠ '/')
    if authority.head? = some '[' then
      some ⟨'[' :: ((authority.drop 1).takeWhile (fun c => c ≠ ']') ++ [']'])⟩
    else
      some ⟨authority.takeWhile (fun c => c ≠ ':')⟩

lemma append_data_ne_nil (s t : String) (h : s.data ≠ []) : (s ++ t).data ≠ [] := by
  rw [String.data_append]
  intro he
  exact h (List.append_eq_nil.mp he).1

lemma append_ne_empty (s t : String) (h : s.data ≠ []) : s ++ t ≠ "" := by
  intro he
  apply append_data_ne_nil s t h
  rw [he]

lemma updateStats_fields (r : ServerCheck) (c : CheckResult) (t : Int) :
    (updateStats r c t).URL = r.URL ∧
    (updateStats r c t).Name = r.Name ∧
    (updateStats r c t).ExpectedContent = r.ExpectedContent ∧
    (updateStats r c t).SSLExpiryDate = r.SSLExpiryDate ∧
    (updateStats r c t).SSLExpiryThreshold = r.SSLExpiryThreshold ∧
    (updateStats r c t).LastSSLNotification = r.LastSSLNotification ∧
    (updateStats r c t).ResponseTimeThreshold = r.ResponseTimeThreshold := by
  simp only [updateStats]
  split_ifs <;> simp_all

lemma checkSSLExpiry_fields (g : Int) (r : ServerCheck) (t : Int) (ok : Bool) :
    (checkSSLExpiry g r t ok).1.URL = r.URL ∧
    (checkSSLExpiry g r t ok).1.Name = r.Name ∧
    (checkSSLExpiry g r t ok).1.ExpectedContent = r.ExpectedContent ∧
    (checkSSLExpiry g r t ok).1.SSLExpiryDate = r.SSLExpiryDate ∧
    (checkSSLExpiry g r t ok).1.SSLExpiryThreshold = r.SSLExpiryThreshold ∧
    (checkSSLExpiry g r t ok).1.TotalChecks = r.TotalChecks ∧
    (checkSSLExpiry g r t ok).1.SuccessfulChecks = r.SuccessfulChecks ∧
    (checkSSLExpiry g r t ok).1.Availability = r.Availability := by
  simp only [checkSSLExpiry]
  split_ifs <;> simp_all

lemma probe_fail_ssl_zero (server : ServerCheck) (net : NetOutcome)
    (tls : String → TLSOutcome) (h : (checkServerStatus server net tls).IsOk = false) :
    (checkServerStatus server net tls).SSLExpiryDate = 0 := by
  cases net with
  | reqError msg => rfl
  | connError msg => rfl
  | response status body ms =>
    cases body <;> simp only [checkServerStatus] at h ⊢ <;>
      split_ifs at h ⊢ <;> simp_all

lemma processTarget_probeOk (t g : Int) (rec : ServerCheck) (st : AlertState)
    (env : CycleEnv) :
    (processTarget t g rec st env).probeOk = (checkServerStatus rec env.net env.tls).IsOk := by
  simp only [processTarget]
  split_ifs with h <;> simp_all

lemma processTarget_of_fail (t g : Int) (rec : ServerCheck) (st : AlertState)
    (env : CycleEnv) (h : (checkServerStatus rec env.net env.tls).IsOk = false) :
    processTarget t g rec st env =
      { record := updateStats rec (checkServerStatus rec env.net env.tls) env.now,
        alert := (handleServerDown st t env.downSendOk).1,
        probeOk := false, sslWarn := .none,
        down := (handleServerDown st t env.downSendOk).2,
        slow := .none, up := .none, time := env.now } := by
  have hz := probe_fail_ssl_zero rec env.net env.tls h
  simp [processTarget, h, hz]

lemma processTarget_of_ok (t g : Int) (rec : ServerCheck) (st : AlertState)
    (env : CycleEnv) (h : (checkServerStatus rec env.net env.tls).IsOk = true) :
    processTarget t g rec st env =
      (let cr := checkServerStatus rec env.net env.tls
       let rec1 := updateStats rec cr env.now
       let ssl :=
         if cr.SSLExpiryDate ≠ 0 then
           checkSSLExpiry g { rec1 with SSLExpiryDate := cr.SSLExpiryDate } env.now env.sslSendOk
         else (rec1, .none)
       let hu := handleServerUp st ssl.1 cr env.slowSendOk env.upSendOk
       { record := ssl.1, alert := hu.1, probeOk := true, sslWarn := ssl.2,
         down := .none, slow := hu.2.1, up := hu.2.2, time := env.now }) := by
  simp [processTarget, h]

/-- An always-failing TLS dial oracle, for concrete instantiations. -/
def tlsAllFail : String → TLSOutcome := fun _ => .dialError

/-- A freshly registered target record (events/telegram.go creates records
with only `Name`, `URL` and `IsOk := false` set; all other fields are the
Go zero values), here with an expected-content check configured. -/
def sampleServer : ServerCheck :=
  { Name := "api", URL := "http://example.com/health", LastFailure := 0,
    LastSuccess := 0, IsOk := false, ExpectedContent := "healthy",
    ResponseTimeThreshold := 0, LastResponseTime := 0, SSLExpiryDate := 0,
    SSLExpiryThreshold := 0, LastSSLNotification := 0, Availability := 0,
    TotalChecks := 0, SuccessfulChecks := 0 }

/-- C6: `checkServerStatus` returns `ok = true` iff a response is received,
its status code is in [200,300), and — when `expectedContent` is non-empty —
the body contains it as a case-sensitive literal substring; on every failure
path the error message is a non-empty diagnostic. -/
theorem probe_ok_characterization (server : ServerCheck) (net : NetOutcome)
    (tls : String → TLSOutcome) :
    ((checkServerStatus server net tls).IsOk = true ↔ probeSuccessSpec server net) ∧
    ((checkServerStatus server net tls).IsOk = false →
      (checkServerStatus server net tls).ErrorMessage ≠ "") := by
  cases net with
  | reqError msg =>
    exact ⟨by simp [checkServerStatus, probeSuccessSpec],
      fun _ => append_ne_empty _ _ (by decide)⟩
  | connError msg =>
    exact ⟨by simp [checkServerStatus, probeSuccessSpec],
      fun _ => append_ne_empty _ _ (by decide)⟩
  | response status body ms =>
    by_cases h1 : 200 ≤ status ∧ status < 300
    · by_cases h2 : server.ExpectedContent = ""
      · constructor
        · simp [checkServerStatus, probeSuccessSpec, h1, h2]
        · intro hfail
          simp [checkServerStatus, h1, h2] at hfail
      · cases body with
        | readErr m =>
          constructor
          · simp [checkServerStatus, probeSuccessSpec, h1, h2]
          · intro _
            simp only [checkServerStatus]
            split_ifs <;> simp_all
            exact append_ne_empty _ _ (by decide)
        | ok bodyString =>
          by_cases h3 : goContains bodyString server.ExpectedContent = true
          · constructor
            · simp [checkServerStatus, probeSuccessSpec, h1, h2, h3]
            · intro hfail
              simp [checkServerStatus, h1, h2, h3] at hfail
          · constructor
            · simp only [checkServerStatus, probeSuccessSpec]
              split_ifs <;> simp_all
            · intro _
              simp [checkServerStatus, h1, h2, h3]
    · constructor
      · simp only [checkServerStatus, probeSuccessSpec]
        rw [if_pos h1]
        constructor
        · intro hfalse
          simp at hfalse
        · intro hR
          exact absurd ⟨hR.1, hR.2.1⟩ h1
      · intro _
        simp only [checkServerStatus]
        split_ifs <;> simp_all
        exact append_ne_empty _ _ (append_data_ne_nil _ _ (by decide))

/-- C6 witness: a 200 response whose body "Service is healthy" contains the
configured expected content "healthy" makes the probe succeed. -/
theorem probe_ok_characterization_witness :
    (checkServerStatus sampleServer
      (NetOutcome.response 200 (.ok "Service is healthy") 5) tlsAllFail).IsOk = true :=
  (probe_ok_characterization sampleServer
      (NetOutcome.response 200 (.ok "Service is healthy") 5) tlsAllFail).1.mpr
    ⟨by decide, by decide,
      Or.inr ⟨"Service is healthy", rfl, by decide⟩⟩

/-- A cycle environment with a refused connection and all sends succeeding. -/
def envConnRefused : CycleEnv :=
  { net := .connError "connection refused", tls := tlsAllFail, now := 1000,
    sslSendOk := true, downSendOk := true, slowSendOk := true, upSendOk := true }

/-- C10: a failed probe always carries a zero SSL expiry (SSL inspection runs
only after every success criterion passed), so the orchestrator's SSL branch —
stored-expiry update and SSL warning — never executes in a cycle where the
probe failed, and an SSL warning and a down alert never fire in the same
cycle for the same target. -/
theorem ssl_branch_requires_probe_success (t g : Int) (rec : ServerCheck)
    (st : AlertState) (env : CycleEnv) :
    ((checkServerStatus rec env.net env.tls).IsOk = false →
      (checkServerStatus rec env.net env.tls).SSLExpiryDate = 0) ∧
    ((processTarget t g rec st env).probeOk = false →
      (processTarget t g rec st env).sslWarn = SendOutcome.none ∧
      (processTarget t g rec st env).record.SSLExpiryDate = rec.SSLExpiryDate) ∧
    ¬ ((processTarget t g rec st env).down ≠ SendOutcome.none ∧
        (processTarget t g rec st env).sslWarn ≠ SendOutcome.none) := by
  refine ⟨probe_fail_ssl_zero rec env.net env.tls, ?_, ?_⟩
  · intro hpf
    have hok : (checkServerStatus rec env.net env.tls).IsOk = false := by
      rw [← processTarget_probeOk t g rec st env]
      exact hpf
    rw [processTarget_of_fail t g rec st env hok]
    exact ⟨rfl, (updateStats_fields rec _ env.now).2.2.2.1⟩
  · rintro ⟨hdown, hssl⟩
    by_cases hok : (checkServerStatus rec env.net env.tls).IsOk = true
    · rw [processTarget_of_ok t g rec st env hok] at hdown
      simp at hdown
    · rw [Bool.not_eq_true] at hok
      rw [processTarget_of_fail t g rec st env hok] at hssl
      simp at hssl

/-- C10 witness: with a refused connection, the cycle sends no SSL warning
and keeps the stored expiry. -/
theorem ssl_branch_requires_probe_success_witness :
    (processTarget 3 30 sampleServer ⟨0, false⟩ envConnRefused).sslWarn =
        SendOutcome.none ∧
    (processTarget 3 30 sampleServer ⟨0, false⟩ envConnRefused).record.SSLExpiryDate =
        sampleServer.SSLExpiryDate :=
  (ssl_branch_requires_probe_success 3 30 sampleServer ⟨0, false⟩ envConnRefused).2.1
    (by decide)

/-- C3 counterexample: when opening the storage file fails, the load does not
return an empty record collection — it hits the fatal path. -/
theorem read_error_not_fail_open :
    ReadChecksData (.openError "no such file or directory") ≠
      LoadOutcome.loaded ⟨[]⟩ := by
  simp [ReadChecksData]

/-- C3 (amended): the store's load aborts the process via `log.Fatalf` on any
read or parse error instead of failing open — so a fatal error can originate
inside the core at the start of a check cycle; only a successful decode
returns a collection. -/
theorem readChecksData_fatal_on_error :
    (∀ msg, ReadChecksData (.openError msg) =
        .fatal ("failed open checks.json: " ++ msg)) ∧
    (∀ msg, ReadChecksData (.decodeError msg) =
        .fatal ("failed decode checks.json: " ++ msg)) ∧
    (∀ d, ReadChecksData (.decoded d) = .loaded d) :=
  ⟨fun _ => rfl, fun _ => rfl, fun _ => rfl⟩

/-- A record whose certificate expired one hour before clock value 1000000,
probed over https with no content check. -/
def expiredCertServer : ServerCheck :=
  { sampleServer with
    URL := "https://expired.example.com", ExpectedContent := "",
    SSLExpiryDate := 996400 }

/-- C4 counterexample: at clock 1000000 this certificate is already expired
(sslExpiry - now = -3600 s); the spec's floor would give daysToExpiry = -1 and
no warning, but Go's truncation toward zero gives 0, the window check passes
and a warning is sent. -/
theorem ssl_warning_fires_for_expired_cert :
    expiredCertServer.SSLExpiryDate - 1000000 < 0 ∧
    Int.fdiv (expiredCertServer.SSLExpiryDate - 1000000) secPerDay = -1 ∧
    daysToExpiry expiredCertServer.SSLExpiryDate 1000000 = 0 ∧
    (checkSSLExpiry 30 expiredCertServer 1000000 true).2 = SendOutcome.sent :=
  ⟨by decide, by decide, by decide, by decide⟩

/-- C4 (amended): `daysToExpiry` truncates toward zero; the SSL branch
considers a warning (reaches the dedup check, i.e. the outcome is not `none`)
exactly when `0 ≤ daysToExpiry < threshold` and the dedup window is open,
with the threshold the per-target value when positive and the global one
otherwise; a certificate expired by at least 24 hours never triggers a
warning, but one expired by less than 24 hours truncates to 0 days and can. -/
theorem ssl_window_characterization (g : Int) (rec : ServerCheck) (t : Int)
    (sendOk : Bool) :
    ((checkSSLExpiry g rec t sendOk).2 ≠ SendOutcome.none ↔
      (0 ≤ daysToExpiry rec.SSLExpiryDate t ∧
        daysToExpiry rec.SSLExpiryDate t <
          effectiveSSLThreshold g rec.SSLExpiryThreshold ∧
        shouldSendSSLNotification rec.LastSSLNotification t = true)) ∧
    (rec.SSLExpiryDate ≤ t - secPerDay →
      (checkSSLExpiry g rec t sendOk).2 = SendOutcome.none) := by
  have hiff : (checkSSLExpiry g rec t sendOk).2 ≠ SendOutcome.none ↔
      (0 ≤ daysToExpiry rec.SSLExpiryDate t ∧
        daysToExpiry rec.SSLExpiryDate t <
          effectiveSSLThreshold g rec.SSLExpiryThreshold ∧
        shouldSendSSLNotification rec.LastSSLNotification t = true) := by
    simp only [checkSSLExpiry]
    split_ifs with h1 h2 h3
    · constructor
      · intro hne
        exact absurd rfl hne
      · rintro ⟨ha, hb, _⟩
        rcases h1 with h1 | h1 <;> omega
    · constructor
      · intro _
        exact ⟨by omega, by omega, h2⟩
      · intro _
        simp
    · constructor
      · intro _
        exact ⟨by omega, by omega, h2⟩
      · intro _
        simp
    · constructor
      · intro hne
        exact absurd rfl hne
      · rintro ⟨_, _, hc⟩
        exact absurd hc h2
  refine ⟨hiff, fun hexp => ?_⟩
  have hd : daysToExpiry rec.SSLExpiryDate t ≤ -1 := by
    unfold daysToExpiry secPerDay
    set d := rec.SSLExpiryDate - t with hdeq
    have h0 : d ≤ -86400 := by
      unfold secPerDay at hexp
      omega
    have h1 : (0 : Int) ≤ -d := by omega
    have h2 : Int.tdiv (-d) 86400 = (-d) / 86400 := Int.tdiv_eq_ediv h1 (by norm_num)
    have h3 : Int.tdiv d 86400 = -Int.tdiv (-d) 86400 := by
      have h4 := Int.neg_tdiv (-d) 86400
      simpa using h4
    rw [h3, h2]
    omega
  by_cases hres : (checkSSLExpiry g rec t sendOk).2 = SendOutcome.none
  · exact hres
  · have hw := hiff.mp hres
    omega

/-- C4 witness: a certificate expired 25 hours before the clock never
triggers a warning. -/
theorem ssl_window_characterization_witness :
    (checkSSLExpiry 30 { expiredCertServer with SSLExpiryDate := 910000 }
        1000000 true).2 = SendOutcome.none :=
  (ssl_window_characterization 30
      { expiredCertServer with SSLExpiryDate := 910000 } 1000000 true).2
    (by decide)

/-- C9 counterexample: for a bracketed IPv6 literal the inline slicing
truncates at the colon inside the literal: the code would dial
"[2001:443" while the URL's host component is "[2001:db8::1]". -/
theorem tls_host_mangles_ipv6 :
    tlsDialHost "https://[2001:db8::1]:8443/path" = some "[2001" ∧
    specURLHost "https://[2001:db8::1]:8443/path" = some "[2001:db8::1]" ∧
    tlsDialHost "https://[2001:db8::1]:8443/path" ≠
      specURLHost "https://[2001:db8::1]:8443/path" :=
  ⟨by decide, by decide, by decide⟩

/-- C9 (amended): SSL inspection is attempted only for https URLs (otherwise
the expiry is zero); any TLS dial failure is swallowed, yields a zero expiry
and the probe outcome is entirely independent of the TLS oracle; the dialed
host is obtained by stripping the scheme and truncating at the first slash
and at the first colon, which equals the URL's host component whenever the
authority is not a bracketed IPv6 literal (non-standard ports included) but
mangles bracketed IPv6 literals. -/
theorem ssl_inspection_characterization (url : String) (tls : String → TLSOutcome)
    (server : ServerCheck) (net : NetOutcome) (tls2 : String → TLSOutcome) :
    (goCutPfx "https://" url = none → getSSLExpiryDate url tls = 0) ∧
    (∀ host, tlsDialHost url = some host →
      tls (host ++ ":443") = .dialError → getSSLExpiryDate url tls = 0) ∧
    ((checkServerStatus server net tls).IsOk = (checkServerStatus server net tls2).IsOk) ∧
    (∀ rest, goCutPfx "https://" url = some rest →
      (rest.data.takeWhile (fun c => c ≠ '/')).head? ≠ some '[' →
      tlsDialHost url = specURLHost url) := by
  refine ⟨?_, ?_, ?_, ?_⟩
  · intro h
    simp [getSSLExpiryDate, tlsDialHost, h]
  · intro host hh hd
    simp [getSSLExpiryDate, hh, hd]
  · cases net with
    | reqError msg => rfl
    | connError msg => rfl
    | response status body ms =>
      cases body <;> simp only [checkServerStatus] <;> split_ifs <;> rfl
  · intro rest hrest hhead
    simp only [tlsDialHost, specURLHost, hrest, goTruncAt]
    rw [if_neg hhead]

/-- C9 witness: for a non-https URL the expiry is zero, and for a hostname
with a non-standard port the sliced host agrees with the URL's host
component. -/
theorem ssl_inspection_characterization_witness :
    getSSLExpiryDate "http://example.com" tlsAllFail = 0 ∧
    tlsDialHost "https://example.com:8443/x" =
      specURLHost "https://example.com:8443/x" :=
  ⟨(ssl_inspection_characterization "http://example.com" tlsAllFail sampleServer
      (NetOutcome.connError "refused") tlsAllFail).1 (by decide),
   (ssl_inspection_characterization "https://example.com:8443/x" tlsAllFail
      sampleServer (NetOutcome.connError "refused") tlsAllFail).2.2.2
     "example.com:8443/x" (by decide) (by decide)⟩

lemma updateStats_stats (r : ServerCheck) (c : CheckResult) (t : Int) :
    (updateStats r c t).TotalChecks = r.TotalChecks + 1 ∧
    (updateStats r c t).SuccessfulChecks =
      (if c.IsOk = true then r.SuccessfulChecks + 1 else r.SuccessfulChecks) ∧
    (updateStats r c t).Availability =
      (if r.TotalChecks + 1 > 0 then
        (((if c.IsOk = true then r.SuccessfulChecks + 1 else r.SuccessfulChecks) : Int) : ℚ) /
          ((r.TotalChecks + 1 : Int) : ℚ) * 100
      else r.Availability) := by
  simp only [updateStats]
  split_ifs <;> simp_all

lemma sslStep_stats (g : Int) (r1 : ServerCheck) (d now : Int) (ok : Bool) :
    ((if d ≠ 0 then checkSSLExpiry g { r1 with SSLExpiryDate := d } now ok
      else (r1, SendOutcome.none)).1.TotalChecks = r1.TotalChecks) ∧
    ((if d ≠ 0 then checkSSLExpiry g { r1 with SSLExpiryDate := d } now ok
      else (r1, SendOutcome.none)).1.SuccessfulChecks = r1.SuccessfulChecks) ∧
    ((if d ≠ 0 then checkSSLExpiry g { r1 with SSLExpiryDate := d } now ok
      else (r1, SendOutcome.none)).1.Availability = r1.Availability) := by
  split_ifs with h
  · have hf := checkSSLExpiry_fields g { r1 with SSLExpiryDate := d } now ok
    exact ⟨hf.2.2.2.2.2.1, hf.2.2.2.2.2.2.1, hf.2.2.2.2.2.2.2⟩
  · exact ⟨rfl, rfl, rfl⟩

lemma processTarget_record_stats (t g : Int) (rec : ServerCheck)
    (st : AlertState) (env : CycleEnv) :
    (processTarget t g rec st env).record.TotalChecks = rec.TotalChecks + 1 ∧
    (processTarget t g rec st env).record.SuccessfulChecks =
      (if (checkServerStatus rec env.net env.tls).IsOk = true then
        rec.SuccessfulChecks + 1 else rec.SuccessfulChecks) ∧
    (processTarget t g rec st env).record.Availability =
      (if rec.TotalChecks + 1 > 0 then
        (((if (checkServerStatus rec env.net env.tls).IsOk = true then
            rec.SuccessfulChecks + 1 else rec.SuccessfulChecks) : Int) : ℚ) /
          ((rec.TotalChecks + 1 : Int) : ℚ) * 100
      else rec.Availability) := by
  have hrec : (processTarget t g rec st env).record =
      (if (checkServerStatus rec env.net env.tls).SSLExpiryDate ≠ 0 then
        checkSSLExpiry g
          { updateStats rec (checkServerStatus rec env.net env.tls) env.now with
            SSLExpiryDate := (checkServerStatus rec env.net env.tls).SSLExpiryDate }
          env.now env.sslSendOk
      else (updateStats rec (checkServerStatus rec env.net env.tls) env.now,
        SendOutcome.none)).1 := by
    simp only [processTarget]
    split_ifs <;> rfl
  have hs := sslStep_stats g (updateStats rec (checkServerStatus rec env.net env.tls) env.now)
    (checkServerStatus rec env.net env.tls).SSLExpiryDate env.now env.sslSendOk
  have hu := updateStats_stats rec (checkServerStatus rec env.net env.tls) env.now
  rw [hrec]
  exact ⟨hs.1.trans hu.1, (hs.2.1).trans hu.2.1, (hs.2.2).trans hu.2.2⟩

/-- The statistics invariant of a target record, as the specification states
it: the counters are ordered, and the availability percentage is derived
from them (0 when no checks ran yet). -/
def statsInvariant (r : ServerCheck) : Prop :=
  0 ≤ r.SuccessfulChecks ∧ r.SuccessfulChecks ≤ r.TotalChecks ∧
  (r.TotalChecks > 0 →
    r.Availability = (r.SuccessfulChecks : ℚ) / (r.TotalChecks : ℚ) * 100) ∧
  (r.TotalChecks = 0 → r.Availability = 0)

lemma processTarget_statsInvariant (t g : Int) (rec : ServerCheck)
    (st : AlertState) (env : CycleEnv) (hinv : statsInvariant rec) :
    statsInvariant (processTarget t g rec st env).record := by
  obtain ⟨h1, h2, h3⟩ := processTarget_record_stats t g rec st env
  obtain ⟨hi1, hi2, hi3, hi4⟩ := hinv
  have hpos : rec.TotalChecks + 1 > 0 := by omega
  refine ⟨?_, ?_, ?_, ?_⟩
  · rw [h2]
    split_ifs <;> omega
  · rw [h1, h2]
    split_ifs <;> omega
  · intro _
    rw [h3, if_pos hpos, h1, h2]
  · intro hzero
    omega

/-- C7: after any number of cycles from a record satisfying the statistics
invariant, `0 ≤ successfulChecks ≤ totalChecks` holds for the final record
and for the record persisted after every intermediate cycle, the availability
percentage equals `successfulChecks / totalChecks * 100` whenever
`totalChecks > 0` and 0 when it is 0, and each cycle increments `totalChecks`
by exactly one and `successfulChecks` by one exactly when the probe
succeeded. -/
theorem stats_invariant_after_cycles (t g : Int) (rec : ServerCheck)
    (st : AlertState) (envs : List CycleEnv) (env : CycleEnv)
    (hinv : statsInvariant rec) :
    statsInvariant (runTargetCycles t g rec st envs).1 ∧
    (∀ out ∈ (runTargetCycles t g rec st envs).2.2, statsInvariant out.record) ∧
    ((processTarget t g rec st env).record.TotalChecks = rec.TotalChecks + 1 ∧
      (processTarget t g rec st env).record.SuccessfulChecks =
        (if (processTarget t g rec st env).probeOk = true then
          rec.SuccessfulChecks + 1 else rec.SuccessfulChecks)) := by
  refine ⟨?_, ?_, ?_⟩
  · clear env
    induction envs generalizing rec st with
    | nil => exact hinv
    | cons e es ih =>
      exact ih (processTarget t g rec st e).record (processTarget t g rec st e).alert
        (processTarget_statsInvariant t g rec st e hinv)
  · clear env
    induction envs generalizing rec st with
    | nil =>
      intro out hout
      simp [runTargetCycles] at hout
    | cons e es ih =>
      intro out hout
      simp only [runTargetCycles, List.mem_cons] at hout
      rcases hout with hout | hout
      · rw [hout]
        exact processTarget_statsInvariant t g rec st e hinv
      · exact ih (processTarget t g rec st e).record (processTarget t g rec st e).alert
          (processTarget_statsInvariant t g rec st e hinv) out hout
  · obtain ⟨h1, h2, _⟩ := processTarget_record_stats t g rec st env
    rw [processTarget_probeOk]
    exact ⟨h1, h2⟩

/-- C7 witness: one failing cycle on a freshly registered record keeps the
statistics invariant. -/
theorem stats_invariant_after_cycles_witness :
    statsInvariant (runTargetCycles 3 30 sampleServer ⟨0, false⟩ [envConnRefused]).1 :=
  (stats_invariant_after_cycles 3 30 sampleServer ⟨0, false⟩ [envConnRefused]
    envConnRefused
    ⟨by decide, by decide, fun h => absurd h (by decide), fun _ => rfl⟩).1

lemma processTarget_record_eq (t g : Int) (rec : ServerCheck) (st : AlertState)
    (env : CycleEnv) :
    (processTarget t g rec st env).record =
      (if (checkServerStatus rec env.net env.tls).SSLExpiryDate ≠ 0 then
        checkSSLExpiry g
          { updateStats rec (checkServerStatus rec env.net env.tls) env.now with
            SSLExpiryDate := (checkServerStatus rec env.net env.tls).SSLExpiryDate }
          env.now env.sslSendOk
      else (updateStats rec (checkServerStatus rec env.net env.tls) env.now,
        SendOutcome.none)).1 ∧
    (processTarget t g rec st env).sslWarn =
      (if (checkServerStatus rec env.net env.tls).SSLExpiryDate ≠ 0 then
        checkSSLExpiry g
          { updateStats rec (checkServerStatus rec env.net env.tls) env.now with
            SSLExpiryDate := (checkServerStatus rec env.net env.tls).SSLExpiryDate }
          env.now env.sslSendOk
      else (updateStats rec (checkServerStatus rec env.net env.tls) env.now,
        SendOutcome.none)).2 := by
  simp only [processTarget]
  split_ifs <;> exact ⟨rfl, rfl⟩

lemma processTarget_record_config (t g : Int) (rec : ServerCheck)
    (st : AlertState) (env : CycleEnv) :
    (processTarget t g rec st env).record.URL = rec.URL ∧
    (processTarget t g rec st env).record.ExpectedContent = rec.ExpectedContent ∧
    (processTarget t g rec st env).record.Name = rec.Name := by
  rw [(processTarget_record_eq t g rec st env).1]
  have hu := updateStats_fields rec (checkServerStatus rec env.net env.tls) env.now
  split_ifs with h
  · have hc := checkSSLExpiry_fields g
      { updateStats rec (checkServerStatus rec env.net env.tls) env.now with
        SSLExpiryDate := (checkServerStatus rec env.net env.tls).SSLExpiryDate }
      env.now env.sslSendOk
    refine ⟨hc.1.trans hu.1, hc.2.2.1.trans hu.2.2.1, hc.2.1.trans hu.2.1⟩
  · exact ⟨hu.1, hu.2.2.1, hu.2.1⟩

lemma checkServerStatus_congr (r1 r2 : ServerCheck) (net : NetOutcome)
    (tls : String → TLSOutcome) (hURL : r1.URL = r2.URL)
    (hEC : r1.ExpectedContent = r2.ExpectedContent) :
    checkServerStatus r1 net tls = checkServerStatus r2 net tls := by
  cases net <;> simp only [checkServerStatus, hURL, hEC]

lemma handleServerDown_spec (st : AlertState) (t : Int) (ok : Bool) :
    ((handleServerDown st t ok).2 ≠ SendOutcome.none ↔ st.failureCount + 1 ≥ t) ∧
    ((handleServerDown st t ok).2 ≠ SendOutcome.none →
      (handleServerDown st t ok).1 = ⟨0, true⟩) ∧
    ((handleServerDown st t ok).2 = SendOutcome.none →
      (handleServerDown st t ok).1 = ⟨st.failureCount + 1, st.faultSent⟩) := by
  simp only [handleServerDown]
  split_ifs with h hok
  · exact ⟨by simp_all, fun _ => rfl, fun heq => by simp at heq⟩
  · exact ⟨by simp_all, fun _ => rfl, fun heq => by simp at heq⟩
  · exact ⟨by simp; omega, fun hne => absurd rfl hne, fun _ => rfl⟩

lemma handleServerUp_spec (st : AlertState) (r : ServerCheck) (c : CheckResult)
    (ok1 ok2 : Bool) :
    ((handleServerUp st r c ok1 ok2).2.2 ≠ SendOutcome.none ↔ st.faultSent = true) ∧
    (handleServerUp st r c ok1 ok2).1 = ⟨0, false⟩ := by
  constructor
  · simp only [handleServerUp]
    cases hf : st.faultSent <;> cases ok2 <;> simp_all
  · simp [handleServerUp]

/-- C2: a recovery ("target is up") notification is dispatched iff the probe
succeeded and the alert-active flag was set; after a successful probe the
flag is cleared and the counter reset; and when no down alert fires in a
failing cycle the flag is unchanged — so without a prior armed alert (e.g.
failures below threshold before the success) no recovery message is ever
sent. -/
theorem recovery_notification_iff (t g : Int) (rec : ServerCheck)
    (st : AlertState) (env : CycleEnv) :
    ((processTarget t g rec st env).up ≠ SendOutcome.none ↔
      (processTarget t g rec st env).probeOk = true ∧ st.faultSent = true) ∧
    ((processTarget t g rec st env).probeOk = true →
      (processTarget t g rec st env).alert.faultSent = false ∧
      (processTarget t g rec st env).alert.failureCount = 0) ∧
    ((processTarget t g rec st env).probeOk = false →
      (processTarget t g rec st env).down = SendOutcome.none →
      (processTarget t g rec st env).alert.faultSent = st.faultSent) := by
  by_cases hok : (checkServerStatus rec env.net env.tls).IsOk = true
  · rw [processTarget_of_ok t g rec st env hok]
    have hu := handleServerUp_spec st
      (if (checkServerStatus rec env.net env.tls).SSLExpiryDate ≠ 0 then
        checkSSLExpiry g
          { updateStats rec (checkServerStatus rec env.net env.tls) env.now with
            SSLExpiryDate := (checkServerStatus rec env.net env.tls).SSLExpiryDate }
          env.now env.sslSendOk
      else (updateStats rec (checkServerStatus rec env.net env.tls) env.now,
        SendOutcome.none)).1
      (checkServerStatus rec env.net env.tls) env.slowSendOk env.upSendOk
    refine ⟨?_, ?_, ?_⟩
    · simpa using hu.1
    · intro _
      simp only []
      rw [hu.2]
      exact ⟨rfl, rfl⟩
    · intro hfail
      simp at hfail
  · rw [Bool.not_eq_true] at hok
    rw [processTarget_of_fail t g rec st env hok]
    have hd := handleServerDown_spec st t env.downSendOk
    refine ⟨?_, ?_, ?_⟩
    · simp
    · intro hfail
      simp at hfail
    · intro _ hnone
      simp only [] at hnone
      rw [hd.2.2 hnone]

/-- C2 witness: a successful probe while the alert is armed sends the
recovery message and clears the flag. -/
theorem recovery_notification_iff_witness :
    (processTarget 3 30 sampleServer ⟨0, true⟩
      { envConnRefused with net := .response 200 (.ok "all healthy") 5 }).up ≠
        SendOutcome.none ∧
    (processTarget 3 30 sampleServer ⟨0, true⟩
      { envConnRefused with net := .response 200 (.ok "all healthy") 5 }).alert.faultSent
      = false :=
  ⟨(recovery_notification_iff 3 30 sampleServer ⟨0, true⟩
      { envConnRefused with net := .response 200 (.ok "all healthy") 5 }).1.mpr
    ⟨by decide, rfl⟩,
   ((recovery_notification_iff 3 30 sampleServer ⟨0, true⟩
      { envConnRefused with net := .response 200 (.ok "all healthy") 5 }).2.1
    (by decide)).1⟩

lemma handleServerDown_state_const (st : AlertState) (t : Int) (ok1 ok2 : Bool) :
    (handleServerDown st t ok1).1 = (handleServerDown st t ok2).1 := by
  simp only [handleServerDown]
  split_ifs <;> rfl

/-- C8 counterexample: an SSL warning whose send fails does not advance
`LastSSLNotification` — `checkSSLExpiry` returns early on a send error
(whereas a successful send does advance it), so the SSL-warning state
transition does not survive a send failure. -/
theorem ssl_state_rolled_back_on_send_failure :
    (checkSSLExpiry 30 { expiredCertServer with SSLExpiryDate := 1500000 }
        1000000 false).2 = SendOutcome.failed ∧
    (checkSSLExpiry 30 { expiredCertServer with SSLExpiryDate := 1500000 }
        1000000 false).1.LastSSLNotification = 0 ∧
    (checkSSLExpiry 30 { expiredCertServer with SSLExpiryDate := 1500000 }
        1000000 true).1.LastSSLNotification = 1000000 :=
  ⟨by decide, by decide, by decide⟩

/-- C8 (amended): the down, slow and recovery send outcomes never influence
the persisted record or the alert state — statistics update, persistence and
alert arming all survive a failed send, and the alert is armed with the
counter reset even when the down message failed; the SSL warning is the
exception: on a failed send `checkSSLExpiry` returns the record unchanged,
so `lastSslNotificationAt` is not advanced. -/
theorem send_failures_ignored (t g : Int) (rec : ServerCheck) (st : AlertState)
    (env : CycleEnv) (b1 b2 b3 : Bool) :
    ((processTarget t g rec st
        { env with downSendOk := b1, slowSendOk := b2, upSendOk := b3 }).record =
      (processTarget t g rec st env).record) ∧
    ((processTarget t g rec st
        { env with downSendOk := b1, slowSendOk := b2, upSendOk := b3 }).alert =
      (processTarget t g rec st env).alert) ∧
    ((handleServerDown st t false).2 = SendOutcome.failed →
      (handleServerDown st t false).1 = ⟨0, true⟩) ∧
    (∀ r : ServerCheck, (checkSSLExpiry g r env.now false).1 = r) := by
  refine ⟨?_, ?_, ?_, ?_⟩
  · rw [(processTarget_record_eq t g rec st env).1,
      (processTarget_record_eq t g rec st
        { env with downSendOk := b1, slowSendOk := b2, upSendOk := b3 }).1]
  · by_cases hok : (checkServerStatus rec env.net env.tls).IsOk = true
    · rw [processTarget_of_ok t g rec st env hok,
        processTarget_of_ok t g rec st
          { env with downSendOk := b1, slowSendOk := b2, upSendOk := b3 } hok]
      simp only [handleServerUp]
    · rw [Bool.not_eq_true] at hok
      rw [processTarget_of_fail t g rec st env hok,
        processTarget_of_fail t g rec st
          { env with downSendOk := b1, slowSendOk := b2, upSendOk := b3 } hok]
      exact handleServerDown_state_const st t b1 env.downSendOk
  · intro hfail
    refine (handleServerDown_spec st t false).2.1 ?_
    rw [hfail]
    simp
  · intro r
    simp only [checkSSLExpiry]
    split_ifs <;> simp_all

/-- C8 witness: with two consecutive failures already recorded and threshold
3, the third failing cycle arms the alert and resets the counter even though
the down message failed to send. -/
theorem send_failures_ignored_witness :
    (handleServerDown ⟨2, false⟩ 3 false).1 = ⟨0, true⟩ :=
  (send_failures_ignored 3 30 sampleServer ⟨2, false⟩ envConnRefused
    false false false).2.2.1 (by decide)

lemma succ_reach_iff_emod (t c : Int) (ht : 1 ≤ t) (hc0 : 0 ≤ c) (hct : c < t) :
    c + 1 ≥ t ↔ (c + 1) % t = 0 := by
  constructor
  · intro h
    have hceq : c + 1 = t := by omega
    rw [hceq]
    exact Int.emod_self
  · intro h
    by_contra hlt
    have h1 : (c + 1) % t = c + 1 := Int.emod_eq_of_lt (by omega) (by omega)
    omega

lemma run_down_fire_aux (t g : Int) (envs : List CycleEnv) :
    ∀ (rec : ServerCheck) (st : AlertState),
      1 ≤ t → 0 ≤ st.failureCount → st.failureCount < t →
      (∀ e ∈ envs, (checkServerStatus rec e.net e.tls).IsOk = false) →
      ∀ i (hi : i < (runTargetCycles t g rec st envs).2.2.length),
        (((runTargetCycles t g rec st envs).2.2.get ⟨i, hi⟩).down ≠ SendOutcome.none ↔
          (st.failureCount + (i : Int) + 1) % t = 0) := by
  induction envs with
  | nil =>
    intro rec st _ _ _ _ i hi
    have hlen : (runTargetCycles t g rec st []).2.2 = [] := rfl
    rw [hlen] at hi
    simp at hi
  | cons e es ih =>
    intro rec st ht hc0 hct hfail i hi
    have hfe : (checkServerStatus rec e.net e.tls).IsOk = false :=
      hfail e (List.mem_cons_self e es)
    have hpf := processTarget_of_fail t g rec st e hfe
    have hd := handleServerDown_spec st t e.downSendOk
    have hdown : (processTarget t g rec st e).down =
        (handleServerDown st t e.downSendOk).2 := by
      rw [hpf]
    have halert : (processTarget t g rec st e).alert =
        (handleServerDown st t e.downSendOk).1 := by
      rw [hpf]
    have hcfg := processTarget_record_config t g rec st e
    have hfail2 : ∀ e2 ∈ es,
        (checkServerStatus (processTarget t g rec st e).record e2.net e2.tls).IsOk = false := by
      intro e2 he2
      rw [checkServerStatus_congr _ rec e2.net e2.tls hcfg.1 hcfg.2.1]
      exact hfail e2 (List.mem_cons_of_mem e he2)
    rcases i with _ | j
    · show (processTarget t g rec st e).down ≠ SendOutcome.none ↔
        (st.failureCount + ((0 : Nat) : Int) + 1) % t = 0
      rw [hdown]
      have hiff := hd.1.trans (succ_reach_iff_emod t st.failureCount ht hc0 hct)
      simpa using hiff
    · have hj : j < (runTargetCycles t g (processTarget t g rec st e).record
          (processTarget t g rec st e).alert es).2.2.length := by
        have hlen : (runTargetCycles t g rec st (e :: es)).2.2.length =
            (runTargetCycles t g (processTarget t g rec st e).record
              (processTarget t g rec st e).alert es).2.2.length + 1 := rfl
        omega
      show ((runTargetCycles t g (processTarget t g rec st e).record
          (processTarget t g rec st e).alert es).2.2.get ⟨j, hj⟩).down ≠ SendOutcome.none ↔
        (st.failureCount + ((j + 1 : Nat) : Int) + 1) % t = 0
      by_cases hfire : (handleServerDown st t e.downSendOk).2 = SendOutcome.none
      · have hstate : (handleServerDown st t e.downSendOk).1 =
            ⟨st.failureCount + 1, st.faultSent⟩ := hd.2.2 hfire
        have hnotge : ¬ (st.failureCount + 1 ≥ t) := fun hge => (hd.1.mpr hge) hfire
        have hcval : (processTarget t g rec st e).alert.failureCount =
            st.failureCount + 1 := by
          rw [halert, hstate]
        have hIH := ih (processTarget t g rec st e).record (processTarget t g rec st e).alert
          ht (by rw [hcval]; omega) (by rw [hcval]; omega) hfail2 j hj
        rw [hcval] at hIH
        rw [hIH]
        have harith : st.failureCount + ((j + 1 : Nat) : Int) + 1 =
            st.failureCount + 1 + (j : Int) + 1 := by
          push_cast
          ring
        rw [harith]
      · have hstate : (handleServerDown st t e.downSendOk).1 = ⟨0, true⟩ := hd.2.1 hfire
        have hceq : st.failureCount + 1 = t := by
          have := hd.1.mp hfire
          omega
        have hcval : (processTarget t g rec st e).alert.failureCount = 0 := by
          rw [halert, hstate]
        have hIH := ih (processTarget t g rec st e).record (processTarget t g rec st e).alert
          ht (by rw [hcval]) (by rw [hcval]; omega) hfail2 j hj
        rw [hcval] at hIH
        rw [hIH]
        have harith : st.failureCount + ((j + 1 : Nat) : Int) + 1 =
            (0 + (j : Int) + 1) + 1 * t := by
          push_cast
          omega
        rw [harith, Int.add_mul_emod_self]

/-- C1: a down notification is dispatched in a cycle iff the probe failed and
the post-increment consecutive-failure count reached `alertThreshold`; firing
resets the counter to 0 and arms the alert; consequently, over any run of
consecutively failing cycles started with a zero counter, the down alert
re-fires exactly at every `alertThreshold`-th failure and never in between. -/
theorem down_alert_iff_threshold (t g : Int) (rec : ServerCheck) (st : AlertState)
    (env : CycleEnv) (envs : List CycleEnv) (ht : 1 ≤ t)
    (hc : 0 ≤ st.failureCount ∧ st.failureCount < t)
    (hfail : ∀ e ∈ envs, (checkServerStatus rec e.net e.tls).IsOk = false) :
    ((processTarget t g rec st env).down ≠ SendOutcome.none ↔
      ((processTarget t g rec st env).probeOk = false ∧ st.failureCount + 1 = t)) ∧
    ((processTarget t g rec st env).down ≠ SendOutcome.none →
      (processTarget t g rec st env).alert = ⟨0, true⟩) ∧
    (st.failureCount = 0 →
      ∀ i (hi : i < (runTargetCycles t g rec st envs).2.2.length),
        (((runTargetCycles t g rec st envs).2.2.get ⟨i, hi⟩).down ≠ SendOutcome.none ↔
          ((i : Int) + 1) % t = 0)) := by
  refine ⟨?_, ?_, ?_⟩
  · by_cases hok : (checkServerStatus rec env.net env.tls).IsOk = true
    · rw [processTarget_of_ok t g rec st env hok]
      simp
    · rw [Bool.not_eq_true] at hok
      rw [processTarget_of_fail t g rec st env hok]
      have hd := handleServerDown_spec st t env.downSendOk
      constructor
      · intro hne
        refine ⟨rfl, ?_⟩
        have := hd.1.mp hne
        omega
      · rintro ⟨_, hceq⟩
        exact hd.1.mpr (by omega)
  · intro hne
    by_cases hok : (checkServerStatus rec env.net env.tls).IsOk = true
    · rw [processTarget_of_ok t g rec st env hok] at hne
      simp at hne
    · rw [Bool.not_eq_true] at hok
      rw [processTarget_of_fail t g rec st env hok] at hne ⊢
      exact (handleServerDown_spec st t env.downSendOk).2.1 hne
  · intro hzero i hi
    have haux := run_down_fire_aux t g envs rec st ht hc.1 hc.2 hfail i hi
    rw [hzero] at haux
    simpa using haux

/-- C1 witness: with threshold 2 and two consecutive failing cycles from a
zero counter, the second cycle (index 1) fires the down alert. -/
theorem down_alert_iff_threshold_witness :
    1 < (runTargetCycles 2 30 sampleServer ⟨0, false⟩
        [envConnRefused, envConnRefused]).2.2.length ∧
    (((runTargetCycles 2 30 sampleServer ⟨0, false⟩
        [envConnRefused, envConnRefused]).2.2.get
      ⟨1, by decide⟩).down ≠ SendOutcome.none) :=
  ⟨by decide,
   ((down_alert_iff_threshold 2 30 sampleServer ⟨0, false⟩ envConnRefused
      [envConnRefused, envConnRefused] (by decide) ⟨by decide, by decide⟩
      (by decide)).2.2 rfl 1 (by decide)).mpr (by decide)⟩

/-- The times of the SSL warnings actually sent during a run, in cycle
order. -/
def sslSendTimes (outs : List CycleOutput) : List Int :=
  outs.filterMap (fun o => if o.sslWarn = SendOutcome.sent then some o.time else none)

lemma checkSSLExpiry_sent_spec (g : Int) (r : ServerCheck) (t : Int) (ok : Bool) :
    ((checkSSLExpiry g r t ok).2 = SendOutcome.sent →
      shouldSendSSLNotification r.LastSSLNotification t = true ∧
      (checkSSLExpiry g r t ok).1.LastSSLNotification = t) ∧
    ((checkSSLExpiry g r t ok).2 ≠ SendOutcome.sent →
      (checkSSLExpiry g r t ok).1.LastSSLNotification = r.LastSSLNotification) := by
  simp only [checkSSLExpiry]
  split_ifs <;> simp_all

lemma processTarget_time (t g : Int) (rec : ServerCheck) (st : AlertState)
    (env : CycleEnv) : (processTarget t g rec st env).time = env.now := by
  simp only [processTarget]
  split_ifs <;> rfl

lemma processTarget_ssl_last (t g : Int) (rec : ServerCheck) (st : AlertState)
    (env : CycleEnv) :
    ((processTarget t g rec st env).sslWarn = SendOutcome.sent →
      shouldSendSSLNotification rec.LastSSLNotification env.now = true ∧
      (processTarget t g rec st env).record.LastSSLNotification = env.now) ∧
    ((processTarget t g rec st env).sslWarn ≠ SendOutcome.sent →
      (processTarget t g rec st env).record.LastSSLNotification =
        rec.LastSSLNotification) := by
  obtain ⟨hrec, hwarn⟩ := processTarget_record_eq t g rec st env
  rw [hrec, hwarn]
  have hu := updateStats_fields rec (checkServerStatus rec env.net env.tls) env.now
  split_ifs with h
  · have hs := checkSSLExpiry_sent_spec g
      { updateStats rec (checkServerStatus rec env.net env.tls) env.now with
        SSLExpiryDate := (checkServerStatus rec env.net env.tls).SSLExpiryDate }
      env.now env.sslSendOk
    have hlast :
        ({ updateStats rec (checkServerStatus rec env.net env.tls) env.now with
          SSLExpiryDate := (checkServerStatus rec env.net env.tls).SSLExpiryDate
          } : ServerCheck).LastSSLNotification = rec.LastSSLNotification :=
      hu.2.2.2.2.2.1
    constructor
    · intro hsent
      obtain ⟨ha, hb⟩ := hs.1 hsent
      rw [hlast] at ha
      exact ⟨ha, hb⟩
    · intro hns
      rw [hs.2 hns]
      exact hlast
  · exact ⟨fun hsent => absurd hsent (by simp), fun _ => hu.2.2.2.2.2.1⟩

lemma run_ssl_dedup_aux (t g : Int) (envs : List CycleEnv) :
    ∀ (rec : ServerCheck) (st : AlertState),
      (∀ e ∈ envs, 0 < e.now) →
      List.Pairwise (fun a b => b - a > 24 * 3600)
        (sslSendTimes (runTargetCycles t g rec st envs).2.2) ∧
      (∀ x ∈ sslSendTimes (runTargetCycles t g rec st envs).2.2,
        0 < x ∧ (rec.LastSSLNotification = 0 ∨
          x - rec.LastSSLNotification > 24 * 3600)) := by
  induction envs with
  | nil =>
    intro rec st _
    have hnil : (runTargetCycles t g rec st []).2.2 = [] := rfl
    rw [hnil]
    exact ⟨List.Pairwise.nil, fun x hx => absurd hx (by simp [sslSendTimes])⟩
  | cons e es ih =>
    intro rec st hpos
    have hpos_e : 0 < e.now := hpos e (List.mem_cons_self e es)
    have hpos_es : ∀ e2 ∈ es, 0 < e2.now :=
      fun e2 h2 => hpos e2 (List.mem_cons_of_mem e h2)
    have hIH := ih (processTarget t g rec st e).record (processTarget t g rec st e).alert
      hpos_es
    have hss := processTarget_ssl_last t g rec st e
    have hcons : (runTargetCycles t g rec st (e :: es)).2.2 =
        processTarget t g rec st e ::
          (runTargetCycles t g (processTarget t g rec st e).record
            (processTarget t g rec st e).alert es).2.2 := rfl
    rw [hcons]
    by_cases hsent : (processTarget t g rec st e).sslWarn = SendOutcome.sent
    · have hsf := hss.1 hsent
      have hsd : rec.LastSSLNotification = 0 ∨
          e.now - rec.LastSSLNotification > 24 * 3600 := by
        have hb := hsf.1
        simpa [shouldSendSSLNotification] using hb
      have htimes : sslSendTimes (processTarget t g rec st e ::
          (runTargetCycles t g (processTarget t g rec st e).record
            (processTarget t g rec st e).alert es).2.2) =
          e.now :: sslSendTimes (runTargetCycles t g (processTarget t g rec st e).record
            (processTarget t g rec st e).alert es).2.2 := by
        simp [sslSendTimes, hsent, processTarget_time]
      rw [htimes]
      constructor
      · refine List.Pairwise.cons ?_ hIH.1
        intro y hy
        have hy2 := hIH.2 y hy
        rcases hy2.2 with h0 | hgap
        · rw [hsf.2] at h0
          omega
        · rw [hsf.2] at hgap
          exact hgap
      · intro x hx
        rcases List.mem_cons.mp hx with hhead | htail
        · subst hhead
          exact ⟨hpos_e, hsd⟩
        · have hx3 := hIH.2 x htail
          refine ⟨hx3.1, ?_⟩
          rcases hx3.2 with h0 | hgap
          · rw [hsf.2] at h0
            omega
          · rw [hsf.2] at hgap
            rcases hsd with h0 | hold
            · exact Or.inl h0
            · exact Or.inr (by omega)
    · have hkeep := hss.2 hsent
      have htimes : sslSendTimes (processTarget t g rec st e ::
          (runTargetCycles t g (processTarget t g rec st e).record
            (processTarget t g rec st e).alert es).2.2) =
          sslSendTimes (runTargetCycles t g (processTarget t g rec st e).record
            (processTarget t g rec st e).alert es).2.2 := by
        simp [sslSendTimes, hsent]
      rw [htimes]
      refine ⟨hIH.1, fun x hx => ?_⟩
      have hx3 := hIH.2 x hx
      rw [hkeep] at hx3
      exact hx3

/-- C5: over any run with positive clock values, any two SSL warnings
actually sent for a target are more than 24 hours apart; and within one
cycle a warning is sent only when the recorded `lastSslNotificationAt` is
zero or more than 24 hours old, the timestamp being advanced to the cycle
time on send. -/
theorem ssl_warning_dedup_24h (t g : Int) (rec : ServerCheck) (st : AlertState)
    (envs : List CycleEnv) (env : CycleEnv) (hpos : ∀ e ∈ envs, 0 < e.now) :
    List.Pairwise (fun a b => b - a > 24 * 3600)
      (sslSendTimes (runTargetCycles t g rec st envs).2.2) ∧
    ((processTarget t g rec st env).sslWarn = SendOutcome.sent →
      shouldSendSSLNotification rec.LastSSLNotification env.now = true ∧
      (processTarget t g rec st env).record.LastSSLNotification = env.now) :=
  ⟨(run_ssl_dedup_aux t g envs rec st hpos).1,
   (processTarget_ssl_last t g rec st env).1⟩

/-- A TLS oracle handing out a leaf certificate expiring at 1600000. -/
def tlsCertAt : String → TLSOutcome := fun _ => .connected [1600000]

/-- An https target without content check. -/
def httpsServer : ServerCheck :=
  { sampleServer with URL := "https://example.com", ExpectedContent := "" }

/-- A successful https cycle environment at the given clock value. -/
def envSSL (now : Int) : CycleEnv :=
  { net := .response 200 (.ok "") 5, tls := tlsCertAt, now := now,
    sslSendOk := true, downSendOk := true, slowSendOk := true, upSendOk := true }

/-- C5 witness: a warning fires at time 100000, is suppressed one hour
later, and fires again 25 hours later; the sent warnings are more than 24
hours apart. -/
theorem ssl_warning_dedup_24h_witness :
    sslSendTimes (runTargetCycles 3 30 httpsServer ⟨0, false⟩
      [envSSL 100000, envSSL 103600, envSSL 190001]).2.2 = [100000, 190001] ∧
    List.Pairwise (fun a b => b - a > 24 * 3600)
      (sslSendTimes (runTargetCycles 3 30 httpsServer ⟨0, false⟩
        [envSSL 100000, envSSL 103600, envSSL 190001]).2.2) :=
  ⟨by decide,
   (ssl_warning_dedup_24h 3 30 httpsServer ⟨0, false⟩
      [envSSL 100000, envSSL 103600, envSSL 190001] (envSSL 100000)
      (by decide)).1⟩

end Checks
